import Mathlib

/-!
Verification of the workspace-edit application engine of the lsp-client
python-sdk repository.  The definitions below are a shallow embedding of
`src/lsp_client/utils/workspace_edit.py` (the Text Edit Engine and the
Workspace Edit Applicator), of the `workspace/applyEdit` responder in
`src/lsp_client/capability/server_request/apply_edit.py`, and of the
document-state store interface they consume.  Strings are modelled as
lists of characters; Python list slicing (which clamps out-of-range
indices) is modelled with `List.take` / `List.drop`.
-/

namespace LspClient

/-- Document content, a Python `str`, modelled as a list of characters. -/
abbrev Text := List Char

/-- An LSP position: zero-based line and character offsets. -/
structure Position where
  line : Nat
  character : Nat
deriving DecidableEq

/-- An LSP range with inclusive start and exclusive end position. -/
structure Range where
  start : Position
  endPos : Position
deriving DecidableEq

/-- The three edit variants accepted by `apply_text_edits`:
`TextEdit`, `AnnotatedTextEdit` and `SnippetTextEdit`. -/
inductive Edit where
  | textEdit (range : Range) (newText : Text)
  | annotatedTextEdit (range : Range) (newText : Text) (annotationId : String)
  | snippetTextEdit (range : Range) (snippet : Text)
deriving DecidableEq

/-- The range of an edit, uniform over the three variants. -/
def Edit.range : Edit → Range
  | .textEdit r _ => r
  | .annotatedTextEdit r _ _ => r
  | .snippetTextEdit r _ => r

/-- Embedding of `_get_edit_text`: a `SnippetTextEdit` contributes its
snippet value as plain text, the other variants their `new_text`. -/
def getEditText : Edit → Text
  | .textEdit _ t => t
  | .annotatedTextEdit _ t _ => t
  | .snippetTextEdit _ s => s

/-- Characters treated as line boundaries by Python `str.splitlines`. -/
def isLineBreak (c : Char) : Bool :=
  c = '\n' || c = '\r' || c.val = 0x0B || c.val = 0x0C || c.val = 0x1C ||
    c.val = 0x1D || c.val = 0x1E || c.val = 0x85 || c.val = 0x2028 || c.val = 0x2029

/-- Worker for `splitlines`; `cur` holds the current line reversed. -/
def splitlinesGo (cur : Text) : Text → List Text
  | [] => if cur = [] then [] else [cur.reverse]
  | '\r' :: '\n' :: rest => (cur.reverse ++ ['\r', '\n']) :: splitlinesGo [] rest
  | c :: rest =>
      if isLineBreak c then (cur.reverse ++ [c]) :: splitlinesGo [] rest
      else splitlinesGo (c :: cur) rest

/-- Embedding of Python `content.splitlines(keepends=True)`: split into
lines with the terminators kept attached. -/
def splitlines (content : Text) : List Text :=
  splitlinesGo [] content

/-- Sort key used by `apply_text_edits`: `(start.line, start.character)`. -/
def editKey (e : Edit) : Nat × Nat :=
  (e.range.start.line, e.range.start.character)

/-- Lexicographic order on sort keys. -/
def keyLe (p q : Nat × Nat) : Prop :=
  p.1 < q.1 ∨ (p.1 = q.1 ∧ p.2 ≤ q.2)

instance (p q : Nat × Nat) : Decidable (keyLe p q) :=
  inferInstanceAs (Decidable (_ ∨ _))

/-- Edit `a` may precede edit `b` in the reverse-sorted list: Python
`sorted(..., key=..., reverse=True)` orders larger keys first and is
stable on equal keys. -/
def editBefore (a b : Edit) : Prop :=
  keyLe (editKey b) (editKey a)

instance : DecidableRel editBefore := fun a b =>
  inferInstanceAs (Decidable (keyLe _ _))

instance : IsTotal Edit editBefore where
  total a b := by
    unfold editBefore keyLe
    omega

instance : IsTrans Edit editBefore where
  trans a b c hab hbc := by
    unfold editBefore keyLe at *
    omega

/-- Embedding of the `sorted(edits, key=..., reverse=True)` call: a stable
sort placing larger `(start.line, start.character)` keys first. -/
def sortEdits (edits : List Edit) : List Edit :=
  List.insertionSort editBefore edits

/-- One iteration of the loop body of `apply_text_edits`, transforming the
current list of lines by a single edit. -/
def applyOneEdit (lines : List Text) (edit : Edit) : List Text :=
  let newText := getEditText edit
  let sl := edit.range.start.line
  let sc := edit.range.start.character
  let el := edit.range.endPos.line
  let ec := edit.range.endPos.character
  if sl ≥ lines.length then
    (lines ++ List.replicate (sl + 1 - lines.length) ['\n']).set sl newText
  else
    let startLineContent := lines.getD sl []
    let endLineContent := if el ≥ lines.length then [] else lines.getD el []
    if sl = el then
      lines.set sl (startLineContent.take sc ++ newText ++ startLineContent.drop ec)
    else
      let newLine := startLineContent.take sc ++ newText ++ endLineContent.drop ec
      let lines2 := lines.set sl newLine
      if el < lines2.length then
        lines2.take (sl + 1) ++ lines2.drop (max (sl + 1) (el + 1))
      else
        lines2

/-- Embedding of `apply_text_edits`: split into lines, sort the edits in
reverse document order, apply them one by one, join the lines back. -/
def apply_text_edits (content : Text) (edits : List Edit) : Text :=
  ((sortEdits edits).foldl applyOneEdit (splitlines content)).flatten

/-- Bounds-checked variant of `applyOneEdit`: every list access that is a
raw Python index (`lines[i]` read or assignment) is guarded, returning
`none` exactly where Python would raise `IndexError`.  Slicing and
`del` are total in Python (they clamp) and stay total here. -/
def applyOneEditChecked (lines : List Text) (edit : Edit) : Option (List Text) :=
  let newText := getEditText edit
  let sl := edit.range.start.line
  let sc := edit.range.start.character
  let el := edit.range.endPos.line
  let ec := edit.range.endPos.character
  if sl ≥ lines.length then
    let padded := lines ++ List.replicate (sl + 1 - lines.length) ['\n']
    if sl < padded.length then some (padded.set sl newText) else none
  else
    match lines[sl]? with
    | none => none
    | some startLineContent =>
      match (if el ≥ lines.length then some [] else lines[el]?) with
      | none => none
      | some endLineContent =>
        if sl = el then
          if sl < lines.length then
            some (lines.set sl (startLineContent.take sc ++ newText ++ startLineContent.drop ec))
          else none
        else
          let newLine := startLineContent.take sc ++ newText ++ endLineContent.drop ec
          if sl < lines.length then
            let lines2 := lines.set sl newLine
            if el < lines2.length then
              some (lines2.take (sl + 1) ++ lines2.drop (max (sl + 1) (el + 1)))
            else
              some lines2
          else none

/-- Bounds-checked variant of `apply_text_edits`; `none` would signal an
`IndexError` escaping the engine. -/
def applyTextEditsChecked (content : Text) (edits : List Edit) : Option Text :=
  ((sortEdits edits).foldlM applyOneEditChecked (splitlines content)).map List.flatten

/-- Document URIs, kept as plain strings.  The collaborator `from_uri` is
out of scope; files are keyed directly by URI. -/
abbrev Uri := String

/-- Modelled from the spec: `lsp_client/client/document_state.py` is not
included under `src/`.  Per §3 of the spec a `DocumentState` is the
immutable value `{content, version}` held per open URI. -/
structure DocumentState where
  content : Text
  version : Int
deriving DecidableEq

/-- The Document State Store: mapping from URI to `DocumentState`. -/
abbrev DocumentStore := List (Uri × DocumentState)

/-- The observable filesystem: mapping from URI to file content. -/
abbrev FileSystem := List (Uri × Text)

/-- Association-list lookup, modelling Python dict access. -/
def alookup {β : Type} (k : Uri) : List (Uri × β) → Option β
  | [] => none
  | (k2, v) :: rest => if k2 = k then some v else alookup k rest

/-- Association-list update-or-insert, modelling Python dict assignment
and the collaborator `write_file`. -/
def aset {β : Type} (k : Uri) (v : β) : List (Uri × β) → List (Uri × β)
  | [] => [(k, v)]
  | (k2, v2) :: rest => if k2 = k then (k, v) :: rest else (k2, v2) :: aset k v rest

/-- Modelled from the spec: `DocumentStateManager.get_version` is not under
`src/`; per §6 it returns the stored version and raises `KeyError` (here
`none`) when the URI is unregistered. -/
def get_version (store : DocumentStore) (uri : Uri) : Option Int :=
  (alookup uri store).map DocumentState.version

/-- Modelled from the spec: `DocumentStateManager.update_content` is not
under `src/`; per §4.3 and §6 it stores the new content, bumps the version
by exactly 1, and raises `KeyError` (here `none`) when the URI is
unregistered. -/
def update_content (store : DocumentStore) (uri : Uri) (newContent : Text) :
    Option DocumentStore :=
  match alookup uri store with
  | none => none
  | some ds => some (aset uri ⟨newContent, ds.version + 1⟩ store)

/-- The `text_document` field of a `TextDocumentEdit`: URI plus optional
expected version (`None` means skip the version check). -/
structure OptionalVersionedTextDocumentIdentifier where
  uri : Uri
  version : Option Int
deriving DecidableEq

/-- An LSP `TextDocumentEdit`. -/
structure TextDocumentEdit where
  textDocument : OptionalVersionedTextDocumentIdentifier
  edits : List Edit
deriving DecidableEq

/-- The four entry kinds of `WorkspaceEdit.document_changes`. -/
inductive DocumentChange where
  | textDocumentEdit (e : TextDocumentEdit)
  | createFile (uri : Uri) (overwrite ignoreIfExists : Bool)
  | renameFile (oldUri newUri : Uri) (overwrite ignoreIfExists : Bool)
  | deleteFile (uri : Uri) (recursive ignoreIfNotExists : Bool)
deriving DecidableEq

/-- An LSP `WorkspaceEdit`: `document_changes` (preferred) or the
deprecated `changes` map, both modelled as lists; the empty list stands
for both `None` and an empty collection (both falsy in Python). -/
structure WorkspaceEdit where
  documentChanges : List DocumentChange
  changes : List (Uri × List Edit)
deriving DecidableEq

/-- The exceptions that can escape a sub-change application.
`editApplication` and `osError` mirror `EditApplicationError` and
`OSError`; `keyError` mirrors the `KeyError` raised by the document store.
Modelled from the spec for the class hierarchy: `lsp_client/exception.py`
is not under `src/`, and per §7 a `VersionMismatchError` is recovered at
the Applicator boundary exactly like an `EditApplicationError`. -/
inductive ApplyError where
  | editApplication (message : String) (uri : Uri)
  | versionMismatch (message : String) (uri : Uri) (expected actual : Int)
  | osError (message : String)
  | keyError (message : String)
deriving DecidableEq

/-- Whether `apply_workspace_edit` catches this exception: it catches
`EditApplicationError` (including `VersionMismatchError`), `OSError` and
`ValueError`, but not `KeyError`. -/
def ApplyError.isCaught : ApplyError → Bool
  | .keyError _ => false
  | _ => true

/-- The failure-reason string produced at the Applicator boundary
(`e.message` for `EditApplicationError`, `str(e)` for `OSError`). -/
def ApplyError.msg : ApplyError → String
  | .editApplication m _ => m
  | .versionMismatch m _ _ _ => m
  | .osError m => m
  | .keyError m => m

/-- Observable filesystem operations issued through the collaborator
interface (`read_file` / `write_file`), recorded as a trace. -/
inductive FsOp where
  | readFile (uri : Uri)
  | writeFile (uri : Uri)
deriving DecidableEq

/-- The mutable world the Applicator acts on: files plus document store. -/
structure WState where
  fs : FileSystem
  store : DocumentStore
deriving DecidableEq

/-- The `read_file` / `apply_text_edits` / `write_file` / `update_content`
block shared by `_apply_text_document_edit` (after the version gate).
A missing file makes `read_file` raise `FileNotFoundError` (an `OSError`);
`update_content` on an untracked URI raises `KeyError` after the write. -/
def editDocumentContents (st : WState) (uri : Uri) (edits : List Edit) :
    WState × List FsOp × Option ApplyError :=
  match alookup uri st.fs with
  | none => (st, [FsOp.readFile uri], some (ApplyError.osError ("File not found: " ++ uri)))
  | some content =>
    let newContent := apply_text_edits content edits
    let fs2 := aset uri newContent st.fs
    match update_content st.store uri newContent with
    | none =>
        ({ st with fs := fs2 }, [FsOp.readFile uri, FsOp.writeFile uri],
          some (ApplyError.keyError ("Document " ++ uri ++ " not found")))
    | some store2 => (⟨fs2, store2⟩, [FsOp.readFile uri, FsOp.writeFile uri], none)

/-- Embedding of `WorkspaceEditApplicator._apply_text_document_edit`:
version gate (when a version is specified) followed by read-apply-write
and the store update. -/
def applyTextDocumentEdit (st : WState) (e : TextDocumentEdit) :
    WState × List FsOp × Option ApplyError :=
  let uri := e.textDocument.uri
  match e.textDocument.version with
  | none => editDocumentContents st uri e.edits
  | some expected =>
    match get_version st.store uri with
    | none =>
        (st, [], some (ApplyError.editApplication
          ("Document " ++ uri ++ " not open in client") uri))
    | some actual =>
      if actual ≠ expected then
        (st, [], some (ApplyError.versionMismatch
          ("Version mismatch for " ++ uri ++ ": expected " ++ toString expected ++
            ", got " ++ toString actual) uri expected actual))
      else editDocumentContents st uri e.edits

/-- Embedding of the `match` in `_apply_document_changes`: text document
edits are applied, the three resource operations raise
`EditApplicationError` (`"... not yet supported"`). -/
def applyDocumentChange (st : WState) : DocumentChange → WState × List FsOp × Option ApplyError
  | .textDocumentEdit e => applyTextDocumentEdit st e
  | .createFile uri _ _ =>
      (st, [], some (ApplyError.editApplication "CreateFile not yet supported" uri))
  | .renameFile oldUri _ _ _ =>
      (st, [], some (ApplyError.editApplication "RenameFile not yet supported" oldUri))
  | .deleteFile uri _ _ =>
      (st, [], some (ApplyError.editApplication "DeleteFile not yet supported" uri))

/-- Embedding of `WorkspaceEditApplicator._apply_document_changes`: the
entries are processed in order and the first exception aborts the loop. -/
def applyDocumentChanges (st : WState) : List DocumentChange → WState × List FsOp × Option ApplyError
  | [] => (st, [], none)
  | c :: rest =>
    match applyDocumentChange st c with
    | (st2, tr, some err) => (st2, tr, some err)
    | (st2, tr, none) =>
      let r := applyDocumentChanges st2 rest
      (r.1, tr ++ r.2.1, r.2.2)

/-- Embedding of `WorkspaceEditApplicator._apply_changes` (the deprecated
`changes` map): read-apply-write per entry, with the `KeyError` from
`update_content` suppressed (`with suppress(KeyError)`). -/
def applyChanges (st : WState) : List (Uri × List Edit) → WState × List FsOp × Option ApplyError
  | [] => (st, [], none)
  | (uri, edits) :: rest =>
    match alookup uri st.fs with
    | none => (st, [FsOp.readFile uri], some (ApplyError.osError ("File not found: " ++ uri)))
    | some content =>
      let newContent := apply_text_edits content edits
      let fs2 := aset uri newContent st.fs
      let store2 :=
        match update_content st.store uri newContent with
        | none => st.store
        | some s => s
      let r := applyChanges ⟨fs2, store2⟩ rest
      (r.1, FsOp.readFile uri :: FsOp.writeFile uri :: r.2.1, r.2.2)

/-- The world passed to the tail of the `_apply_changes` loop after one
entry: the file rewritten, the store updated when tracked. -/
def nextState (st : WState) (uri : Uri) (edits : List Edit) (c : Text) : WState :=
  ⟨aset uri (apply_text_edits c edits) st.fs,
    match update_content st.store uri (apply_text_edits c edits) with
    | none => st.store
    | some s => s⟩

/-- The dispatch inside the `try` block of `apply_workspace_edit`:
`document_changes` takes priority when truthy, else the `changes` map,
else nothing. -/
def applyEditInner (st : WState) (edit : WorkspaceEdit) : WState × List FsOp × Option ApplyError :=
  if edit.documentChanges ≠ [] then applyDocumentChanges st edit.documentChanges
  else if edit.changes ≠ [] then applyChanges st edit.changes
  else (st, [], none)

/-- Outcome of `apply_workspace_edit`: a returned `(applied, reason)` pair
(`responded`), or an uncaught exception propagating to the caller
(`raised`).  Both carry the mutated world and the filesystem trace. -/
inductive ApplyResult where
  | responded (st : WState) (trace : List FsOp) (applied : Bool) (failureReason : Option String)
  | raised (st : WState) (trace : List FsOp) (error : ApplyError)
deriving DecidableEq

/-- The world after the apply, whether it returned or raised. -/
def ApplyResult.state : ApplyResult → WState
  | .responded s _ _ _ => s
  | .raised s _ _ => s

/-- Embedding of `WorkspaceEditApplicator.apply_workspace_edit`: the
`try`/`except` boundary converting `EditApplicationError` (with
`VersionMismatchError`), `OSError` and `ValueError` into
`(False, reason)`; any other exception propagates. -/
def applyWorkspaceEdit (st : WState) (edit : WorkspaceEdit) : ApplyResult :=
  match applyEditInner st edit with
  | (st2, tr, none) => .responded st2 tr true none
  | (st2, tr, some err) =>
    if err.isCaught then .responded st2 tr false (some err.msg)
    else .raised st2 tr err

/-- The protocol result shape produced by the responder. -/
structure ApplyWorkspaceEditResult where
  applied : Bool
  failureReason : Option String
deriving DecidableEq

/-- Embedding of `WithRespondApplyEdit._respond_apply_edit`: wrap the
Applicator outcome into an `ApplyWorkspaceEditResult`; an uncaught
exception propagates to the transport layer (`Except.error`). -/
def respondApplyEdit (st : WState) (edit : WorkspaceEdit) :
    Except ApplyError (WState × ApplyWorkspaceEditResult) :=
  match applyWorkspaceEdit st edit with
  | .responded st2 _ b r => .ok (st2, ⟨b, r⟩)
  | .raised _ _ e => .error e

/-- Order on positions: `p` is at or before `q` in the document. -/
def posLe (p q : Position) : Prop :=
  p.line < q.line ∨ (p.line = q.line ∧ p.character ≤ q.character)

instance (p q : Position) : Decidable (posLe p q) :=
  inferInstanceAs (Decidable (_ ∨ _))

/-- Two ranges do not overlap: one ends at or before the other starts.
Per LSP this admits several inserts at one position (empty ranges). -/
def rangesDisjoint (r1 r2 : Range) : Prop :=
  posLe r1.endPos r2.start ∨ posLe r2.endPos r1.start

instance (r1 r2 : Range) : Decidable (rangesDisjoint r1 r2) :=
  inferInstanceAs (Decidable (_ ∨ _))

theorem alookup_aset_self {β : Type} (k : Uri) (v : β) (l : List (Uri × β)) :
    alookup k (aset k v l) = some v := by
  induction l with
  | nil => simp [aset, alookup]
  | cons p rest ih =>
    obtain ⟨k2, v2⟩ := p
    by_cases h : k2 = k
    · simp [aset, alookup, h]
    · simp [aset, alookup, h, ih]

theorem editDocumentContents_success (st : WState) (uri : Uri) (edits : List Edit)
    (st2 : WState) (tr : List FsOp)
    (h : editDocumentContents st uri edits = (st2, tr, none)) :
    ∃ c ds, alookup uri st.fs = some c ∧ alookup uri st.store = some ds ∧
      st2 = ⟨aset uri (apply_text_edits c edits) st.fs,
             aset uri ⟨apply_text_edits c edits, ds.version + 1⟩ st.store⟩ := by
  unfold editDocumentContents update_content at h
  cases hfs : alookup uri st.fs with
  | none => rw [hfs] at h; simp at h
  | some c =>
    rw [hfs] at h
    cases hst : alookup uri st.store with
    | none => rw [hst] at h; simp at h
    | some ds =>
      rw [hst] at h
      simp only [Prod.mk.injEq] at h
      exact ⟨c, ds, rfl, rfl, h.1.symm⟩

theorem applyTextDocumentEdit_success (st : WState) (e : TextDocumentEdit)
    (st2 : WState) (tr : List FsOp)
    (h : applyTextDocumentEdit st e = (st2, tr, none)) :
    editDocumentContents st e.textDocument.uri e.edits = (st2, tr, none) := by
  cases hv : e.textDocument.version with
  | none => simpa only [applyTextDocumentEdit, hv] using h
  | some expected =>
    simp only [applyTextDocumentEdit, hv] at h
    cases hgv : get_version st.store e.textDocument.uri with
    | none => simp only [hgv] at h; simp at h
    | some actual =>
      simp only [hgv] at h
      by_cases hne : actual ≠ expected
      · rw [if_pos hne] at h; simp at h
      · rw [if_neg hne] at h; exact h

/-- Claim C1: the spec asserts the full CreateFile policy (AlreadyExists
on an existing target, no-op under `ignore_if_exists`, empty-file creation
otherwise), but `_apply_document_changes` fails every `CreateFile` with
`EditApplicationError("CreateFile not yet supported")`: on an absent
target nothing is created and the apply reports failure, and on an
existing target with `ignore_if_exists=true` the apply also reports
failure instead of succeeding as a no-op. -/
theorem c1_createFile_always_unsupported :
    applyWorkspaceEdit ⟨[], []⟩
        ⟨[DocumentChange.createFile "file:///new.txt" false false], []⟩ =
      ApplyResult.responded ⟨[], []⟩ [] false (some "CreateFile not yet supported") ∧
    applyWorkspaceEdit ⟨[("file:///existing.txt", "orig".toList)], []⟩
        ⟨[DocumentChange.createFile "file:///existing.txt" false true], []⟩ =
      ApplyResult.responded ⟨[("file:///existing.txt", "orig".toList)], []⟩ [] false
        (some "CreateFile not yet supported") :=
  ⟨rfl, rfl⟩

/-- Claim C2, counterexample: two insertions at the same position have
disjoint (empty) ranges, yet swapping their input order changes the
output, because the reverse sort is stable and applies the later-listed
insertion first; so `apply_text_edits` is not order-independent for every
set of non-overlapping edits. -/
theorem c2_counterexample :
    rangesDisjoint ⟨⟨0, 1⟩, ⟨0, 1⟩⟩ ⟨⟨0, 1⟩, ⟨0, 1⟩⟩ ∧
    apply_text_edits "abcd".toList
        [Edit.textEdit ⟨⟨0, 1⟩, ⟨0, 1⟩⟩ "X".toList,
         Edit.textEdit ⟨⟨0, 1⟩, ⟨0, 1⟩⟩ "Y".toList] ≠
      apply_text_edits "abcd".toList
        [Edit.textEdit ⟨⟨0, 1⟩, ⟨0, 1⟩⟩ "Y".toList,
         Edit.textEdit ⟨⟨0, 1⟩, ⟨0, 1⟩⟩ "X".toList] :=
  ⟨by decide, by decide⟩

/-- Claim C3, counterexample: a `TextDocumentEdit` with version `None`
targeting a URI absent from the Document State Store does not yield
`(false, reason)`: after writing the file, `update_content` raises a
`KeyError` that `apply_workspace_edit` does not catch, so the exception
propagates and the responder turns it into a transport-level error rather
than a successful `applied=false` response. -/
theorem c3_counterexample :
    applyWorkspaceEdit ⟨[("file:///a.txt", "x".toList)], []⟩
        ⟨[DocumentChange.textDocumentEdit ⟨⟨"file:///a.txt", none⟩, []⟩], []⟩ =
      ApplyResult.raised ⟨[("file:///a.txt", "x".toList)], []⟩
        [FsOp.readFile "file:///a.txt", FsOp.writeFile "file:///a.txt"]
        (ApplyError.keyError "Document file:///a.txt not found") ∧
    respondApplyEdit ⟨[("file:///a.txt", "x".toList)], []⟩
        ⟨[DocumentChange.textDocumentEdit ⟨⟨"file:///a.txt", none⟩, []⟩], []⟩ =
      Except.error (ApplyError.keyError "Document file:///a.txt not found") :=
  ⟨rfl, rfl⟩

/-- Claim C4, counterexample: for `"a\nb\nc\n"` and an edit spanning
(0,0)-(5,0) with `end.line` beyond the last line, the code leaves lines 1
and 2 in place (the deletion step is guarded by `end_line < len(lines)`),
producing `"Xb\nc\n"`, whereas the claim's description (remove all lines
strictly between and including the end line) would produce `"X"`. -/
theorem c4_counterexample :
    apply_text_edits "a\nb\nc\n".toList
        [Edit.textEdit ⟨⟨0, 0⟩, ⟨5, 0⟩⟩ "X".toList] = "Xb\nc\n".toList ∧
    ("Xb\nc\n".toList : Text) ≠ "X".toList :=
  ⟨rfl, by decide⟩

/-- Claim C5: applying a `TextDocumentEdit` whose specified version
disagrees with the stored version fails with a `VersionMismatch` carrying
both the expected and the actual version, the message reports both, and
neither the Document State Store nor the filesystem is touched (the world
is returned unchanged and the filesystem trace is empty). -/
theorem c5_version_mismatch (st : WState) (uri : Uri) (edits : List Edit)
    (expected : Int) (ds : DocumentState)
    (hstore : alookup uri st.store = some ds) (hne : ds.version ≠ expected) :
    applyTextDocumentEdit st ⟨⟨uri, some expected⟩, edits⟩ =
      (st, [], some (ApplyError.versionMismatch
        ("Version mismatch for " ++ uri ++ ": expected " ++ toString expected ++
          ", got " ++ toString ds.version) uri expected ds.version)) ∧
    applyWorkspaceEdit st
        ⟨[DocumentChange.textDocumentEdit ⟨⟨uri, some expected⟩, edits⟩], []⟩ =
      ApplyResult.responded st [] false
        (some ("Version mismatch for " ++ uri ++ ": expected " ++ toString expected ++
          ", got " ++ toString ds.version)) := by
  have h1 : applyTextDocumentEdit st ⟨⟨uri, some expected⟩, edits⟩ =
      (st, [], some (ApplyError.versionMismatch
        ("Version mismatch for " ++ uri ++ ": expected " ++ toString expected ++
          ", got " ++ toString ds.version) uri expected ds.version)) := by
    simp only [applyTextDocumentEdit, get_version, hstore, Option.map_some']
    rw [if_pos hne]
  refine ⟨h1, ?_⟩
  simp only [applyWorkspaceEdit, applyEditInner, applyDocumentChanges, applyDocumentChange,
    h1, ApplyError.isCaught, ApplyError.msg]
  rw [if_pos (by simp)]
  rfl

/-- Witness for claim C5 at a concrete input: URI registered at version 5,
edit expecting version 0. -/
theorem c5_version_mismatch_witness :
    applyTextDocumentEdit ⟨[("file:///t.py", "p".toList)], [("file:///t.py", ⟨"p".toList, 5⟩)]⟩
        ⟨⟨"file:///t.py", some 0⟩, []⟩ =
      (⟨[("file:///t.py", "p".toList)], [("file:///t.py", ⟨"p".toList, 5⟩)]⟩, [],
        some (ApplyError.versionMismatch
          "Version mismatch for file:///t.py: expected 0, got 5" "file:///t.py" 0 5)) ∧
    applyWorkspaceEdit ⟨[("file:///t.py", "p".toList)], [("file:///t.py", ⟨"p".toList, 5⟩)]⟩
        ⟨[DocumentChange.textDocumentEdit ⟨⟨"file:///t.py", some 0⟩, []⟩], []⟩ =
      ApplyResult.responded
        ⟨[("file:///t.py", "p".toList)], [("file:///t.py", ⟨"p".toList, 5⟩)]⟩ [] false
        (some "Version mismatch for file:///t.py: expected 0, got 5") :=
  c5_version_mismatch _ "file:///t.py" [] 0 ⟨"p".toList, 5⟩ rfl (by decide)

/-- Claim C6: a versioned `TextDocumentEdit` against a URI that was never
registered fails with the `DocumentNotOpen` error (`EditApplicationError`
"Document ... not open in client"), the world is returned unchanged, and
the filesystem trace is empty, so no file is read or written. -/
theorem c6_document_not_open (st : WState) (uri : Uri) (edits : List Edit)
    (expected : Int) (hstore : alookup uri st.store = none) :
    applyTextDocumentEdit st ⟨⟨uri, some expected⟩, edits⟩ =
      (st, [], some (ApplyError.editApplication
        ("Document " ++ uri ++ " not open in client") uri)) ∧
    applyWorkspaceEdit st
        ⟨[DocumentChange.textDocumentEdit ⟨⟨uri, some expected⟩, edits⟩], []⟩ =
      ApplyResult.responded st [] false
        (some ("Document " ++ uri ++ " not open in client")) := by
  have h1 : applyTextDocumentEdit st ⟨⟨uri, some expected⟩, edits⟩ =
      (st, [], some (ApplyError.editApplication
        ("Document " ++ uri ++ " not open in client") uri)) := by
    simp only [applyTextDocumentEdit, get_version, hstore, Option.map_none']
  refine ⟨h1, ?_⟩
  simp only [applyWorkspaceEdit, applyEditInner, applyDocumentChanges, applyDocumentChange,
    h1, ApplyError.isCaught, ApplyError.msg]
  rw [if_pos (by simp)]
  rfl

/-- Witness for claim C6 at a concrete input: empty store, versioned edit. -/
theorem c6_document_not_open_witness :
    applyTextDocumentEdit ⟨[("file:///u.py", "p".toList)], []⟩
        ⟨⟨"file:///u.py", some 0⟩, []⟩ =
      (⟨[("file:///u.py", "p".toList)], []⟩, [],
        some (ApplyError.editApplication
          "Document file:///u.py not open in client" "file:///u.py")) ∧
    applyWorkspaceEdit ⟨[("file:///u.py", "p".toList)], []⟩
        ⟨[DocumentChange.textDocumentEdit ⟨⟨"file:///u.py", some 0⟩, []⟩], []⟩ =
      ApplyResult.responded ⟨[("file:///u.py", "p".toList)], []⟩ [] false
        (some "Document file:///u.py not open in client") :=
  c6_document_not_open _ "file:///u.py" [] 0 rfl

/-- Claim C7: whenever a `TextDocumentEdit` applies successfully, the
stored version for its URI is bumped by exactly 1 and the stored content
equals the post-edit content written to the file (both become
`apply_text_edits` of the content read from disk). -/
theorem c7_success_increments_version (st : WState) (e : TextDocumentEdit)
    (st2 : WState) (tr : List FsOp)
    (h : applyTextDocumentEdit st e = (st2, tr, none)) :
    ∃ oldContent oldState,
      alookup e.textDocument.uri st.fs = some oldContent ∧
      alookup e.textDocument.uri st.store = some oldState ∧
      alookup e.textDocument.uri st2.store =
        some ⟨apply_text_edits oldContent e.edits, oldState.version + 1⟩ ∧
      alookup e.textDocument.uri st2.fs =
        some (apply_text_edits oldContent e.edits) := by
  obtain ⟨c, ds, hfs, hst, hrest⟩ :=
    editDocumentContents_success st e.textDocument.uri e.edits st2 tr
      (applyTextDocumentEdit_success st e st2 tr h)
  subst hrest
  exact ⟨c, ds, hfs, hst, alookup_aset_self _ _ _, alookup_aset_self _ _ _⟩

/-- Witness for claim C7 at a concrete input: registered URI at version 3,
successful empty edit list; the version becomes 4. -/
theorem c7_success_increments_version_witness :
    ∃ oldContent oldState,
      alookup "file:///w.py" (WState.fs ⟨[("file:///w.py", "hi".toList)],
        [("file:///w.py", ⟨"hi".toList, 3⟩)]⟩) = some oldContent ∧
      alookup "file:///w.py" (WState.store ⟨[("file:///w.py", "hi".toList)],
        [("file:///w.py", ⟨"hi".toList, 3⟩)]⟩) = some oldState ∧
      alookup "file:///w.py" (WState.store ⟨[("file:///w.py", "hi".toList)],
        [("file:///w.py", ⟨"hi".toList, 4⟩)]⟩) =
        some ⟨apply_text_edits oldContent [], oldState.version + 1⟩ ∧
      alookup "file:///w.py" (WState.fs ⟨[("file:///w.py", "hi".toList)],
        [("file:///w.py", ⟨"hi".toList, 4⟩)]⟩) =
        some (apply_text_edits oldContent []) :=
  c7_success_increments_version
    ⟨[("file:///w.py", "hi".toList)], [("file:///w.py", ⟨"hi".toList, 3⟩)]⟩
    ⟨⟨"file:///w.py", some 3⟩, []⟩
    ⟨[("file:///w.py", "hi".toList)], [("file:///w.py", ⟨"hi".toList, 4⟩)]⟩
    [FsOp.readFile "file:///w.py", FsOp.writeFile "file:///w.py"] rfl

/-- Claim C3, amended: every sub-change failure raised as
`EditApplicationError` (including `VersionMismatchError`) or as an
I/O error is caught at the Applicator boundary and converted to
`(false, reason)`, and the responder wraps that into a successful
protocol response carrying `applied=false`; the one exception, forced by
the counterexample, is the `KeyError` escaping `update_content` when a
version-`None` edit targets an unregistered URI, which propagates. -/
theorem c3_caught_failures_reported (st : WState) (edit : WorkspaceEdit)
    (st2 : WState) (tr : List FsOp) (err : ApplyError)
    (h : applyEditInner st edit = (st2, tr, some err)) (hc : err.isCaught = true) :
    applyWorkspaceEdit st edit = ApplyResult.responded st2 tr false (some err.msg) ∧
    respondApplyEdit st edit = Except.ok (st2, ⟨false, some err.msg⟩) := by
  have h1 : applyWorkspaceEdit st edit = ApplyResult.responded st2 tr false (some err.msg) := by
    simp only [applyWorkspaceEdit, h, hc, if_true]
  exact ⟨h1, by simp only [respondApplyEdit, h1]⟩

/-- Witness for the amended claim C3 at a concrete input: a versioned edit
against an unregistered URI is reported as `applied=false`. -/
theorem c3_caught_failures_reported_witness :
    applyWorkspaceEdit ⟨[], []⟩
        ⟨[DocumentChange.textDocumentEdit ⟨⟨"file:///v.txt", some 1⟩, []⟩], []⟩ =
      ApplyResult.responded ⟨[], []⟩ [] false
        (some "Document file:///v.txt not open in client") ∧
    respondApplyEdit ⟨[], []⟩
        ⟨[DocumentChange.textDocumentEdit ⟨⟨"file:///v.txt", some 1⟩, []⟩], []⟩ =
      Except.ok (⟨[], []⟩, ⟨false, some "Document file:///v.txt not open in client"⟩) :=
  c3_caught_failures_reported ⟨[], []⟩
    ⟨[DocumentChange.textDocumentEdit ⟨⟨"file:///v.txt", some 1⟩, []⟩], []⟩
    ⟨[], []⟩ []
    (ApplyError.editApplication "Document file:///v.txt not open in client" "file:///v.txt")
    rfl rfl

theorem applyChanges_cons_found (st : WState) (uri : Uri) (edits : List Edit)
    (rest : List (Uri × List Edit)) (c : Text) (hfs : alookup uri st.fs = some c) :
    applyChanges st ((uri, edits) :: rest) =
      ((applyChanges (nextState st uri edits c) rest).1,
        FsOp.readFile uri :: FsOp.writeFile uri :: (applyChanges (nextState st uri edits c) rest).2.1,
        (applyChanges (nextState st uri edits c) rest).2.2) := by
  simp only [applyChanges, hfs, nextState]

/-- Claim C8: the deprecated `changes` path performs no document-version
validation (the only failure it can produce is an I/O error from
`read_file`, never `DocumentNotOpen` or `VersionMismatch`), and for an
equivalent single-file edit it leaves exactly the same final file content
as the `document_changes` path. -/
theorem c8_changes_no_version_checks_same_content :
    (∀ (st : WState) (m : List (Uri × List Edit)) (st2 : WState) (tr : List FsOp)
        (err : ApplyError), applyChanges st m = (st2, tr, some err) →
          ∃ msg, err = ApplyError.osError msg) ∧
    (∀ (st : WState) (uri : Uri) (edits : List Edit),
        (applyWorkspaceEdit st
          ⟨[DocumentChange.textDocumentEdit ⟨⟨uri, none⟩, edits⟩], []⟩).state.fs =
        (applyWorkspaceEdit st ⟨[], [(uri, edits)]⟩).state.fs) := by
  constructor
  · intro st m
    induction m generalizing st with
    | nil =>
      intro st2 tr err h
      simp [applyChanges] at h
    | cons p rest ih =>
      obtain ⟨uri, edits⟩ := p
      intro st2 tr err h
      cases hfs : alookup uri st.fs with
      | none =>
        simp only [applyChanges, hfs, Prod.mk.injEq] at h
        exact ⟨"File not found: " ++ uri, (Option.some.inj h.2.2).symm⟩
      | some c =>
        rw [applyChanges_cons_found st uri edits rest c hfs] at h
        simp only [Prod.mk.injEq] at h
        exact ih (nextState st uri edits c) _ _ err (by rw [← h.2.2])
  · intro st uri edits
    cases hfs : alookup uri st.fs with
    | none =>
      simp [applyWorkspaceEdit, applyEditInner, applyDocumentChanges, applyDocumentChange,
        applyTextDocumentEdit, editDocumentContents, applyChanges, hfs, ApplyError.isCaught,
        ApplyResult.state]
    | some c =>
      cases hu : update_content st.store uri (apply_text_edits c edits) with
      | none =>
        simp [applyWorkspaceEdit, applyEditInner, applyDocumentChanges, applyDocumentChange,
          applyTextDocumentEdit, editDocumentContents, applyChanges, hfs, hu,
          ApplyError.isCaught, ApplyResult.state]
      | some s2 =>
        simp [applyWorkspaceEdit, applyEditInner, applyDocumentChanges, applyDocumentChange,
          applyTextDocumentEdit, editDocumentContents, applyChanges, hfs, hu,
          ApplyError.isCaught, ApplyResult.state]

/-- Witness for claim C8 at a concrete input: a `changes` entry whose file
is missing produces an `OSError`-style failure, and the two paths agree on
the final content of an existing file. -/
theorem c8_changes_no_version_checks_same_content_witness :
    (∃ msg, ApplyError.osError "File not found: file:///m.txt" = ApplyError.osError msg) ∧
    (applyWorkspaceEdit ⟨[("file:///m.txt", "ab".toList)], []⟩
        ⟨[DocumentChange.textDocumentEdit ⟨⟨"file:///m.txt", none⟩, []⟩], []⟩).state.fs =
      (applyWorkspaceEdit ⟨[("file:///m.txt", "ab".toList)], []⟩
        ⟨[], [("file:///m.txt", [])]⟩).state.fs :=
  ⟨c8_changes_no_version_checks_same_content.1 ⟨[], []⟩ [("file:///m.txt", [])]
      ⟨[], []⟩ [FsOp.readFile "file:///m.txt"]
      (ApplyError.osError "File not found: file:///m.txt") rfl,
    c8_changes_no_version_checks_same_content.2 _ "file:///m.txt" []⟩

/-- Claim C10: in the deprecated `changes` path, an entry whose URI has no
registered `DocumentState` still writes the new file content, the store
lookup failure is suppressed so the Document State Store is returned
unchanged, and the batch succeeds. -/
theorem c10_changes_untracked_store_untouched (st : WState) (uri : Uri)
    (edits : List Edit) (c : Text)
    (hstore : alookup uri st.store = none) (hfs : alookup uri st.fs = some c) :
    applyWorkspaceEdit st ⟨[], [(uri, edits)]⟩ =
      ApplyResult.responded ⟨aset uri (apply_text_edits c edits) st.fs, st.store⟩
        [FsOp.readFile uri, FsOp.writeFile uri] true none := by
  have h1 : applyChanges st [(uri, edits)] =
      (⟨aset uri (apply_text_edits c edits) st.fs, st.store⟩,
        [FsOp.readFile uri, FsOp.writeFile uri], none) := by
    simp only [applyChanges, hfs, update_content, hstore]
  simp only [applyWorkspaceEdit, applyEditInner, h1]
  rfl

/-- Witness for claim C10 at a concrete input. -/
theorem c10_changes_untracked_store_untouched_witness :
    applyWorkspaceEdit ⟨[("file:///d.txt", "ab".toList)], [("file:///o.txt", ⟨[], 0⟩)]⟩
        ⟨[], [("file:///d.txt", [Edit.textEdit ⟨⟨0, 0⟩, ⟨0, 1⟩⟩ "Z".toList])]⟩ =
      ApplyResult.responded
        ⟨[("file:///d.txt", "Zb".toList)], [("file:///o.txt", ⟨[], 0⟩)]⟩
        [FsOp.readFile "file:///d.txt", FsOp.writeFile "file:///d.txt"] true none := by
  have h := c10_changes_untracked_store_untouched
    ⟨[("file:///d.txt", "ab".toList)], [("file:///o.txt", ⟨[], 0⟩)]⟩
    "file:///d.txt" [Edit.textEdit ⟨⟨0, 0⟩, ⟨0, 1⟩⟩ "Z".toList] "ab".toList rfl rfl
  exact h.trans (by rfl)

theorem applyOneEditChecked_eq (lines : List Text) (e : Edit) :
    applyOneEditChecked lines e = some (applyOneEdit lines e) := by
  by_cases h : lines.length ≤ e.range.start.line
  · have hlen : e.range.start.line <
        (lines ++ List.replicate (e.range.start.line + 1 - lines.length) ['\n']).length := by
      simp only [List.length_append, List.length_replicate]
      omega
    simp only [applyOneEditChecked, applyOneEdit, ge_iff_le, if_pos h, if_pos hlen]
  · push_neg at h
    have h1 : lines[e.range.start.line]? = some (lines.getD e.range.start.line []) := by
      rw [List.getD_eq_getElem lines [] h, List.getElem?_eq_getElem h]
    by_cases h2 : lines.length ≤ e.range.endPos.line
    · have hne : ¬ (e.range.start.line = e.range.endPos.line) := by omega
      simp only [applyOneEditChecked, applyOneEdit, ge_iff_le, if_neg (not_le.mpr h), h1,
        if_pos h2, if_neg hne, if_pos h, List.length_set, if_neg (not_lt.mpr h2)]
    · push_neg at h2
      have h2' : lines[e.range.endPos.line]? = some (lines.getD e.range.endPos.line []) := by
        rw [List.getD_eq_getElem lines [] h2, List.getElem?_eq_getElem h2]
      by_cases h3 : e.range.start.line = e.range.endPos.line
      · simp only [applyOneEditChecked, applyOneEdit, ge_iff_le, if_neg (not_le.mpr h), h1,
          if_neg (not_le.mpr h2), h2', if_pos h3, if_pos h]
      · simp only [applyOneEditChecked, applyOneEdit, ge_iff_le, if_neg (not_le.mpr h), h1,
          if_neg (not_le.mpr h2), h2', if_neg h3, if_pos h, List.length_set]
        rw [apply_ite some]

theorem foldlM_applyOneEditChecked (l : List Edit) :
    ∀ lines : List Text,
      List.foldlM applyOneEditChecked lines l = some (List.foldl applyOneEdit lines l) := by
  induction l with
  | nil => intro lines; rfl
  | cons e rest ih =>
    intro lines
    rw [List.foldlM_cons, applyOneEditChecked_eq]
    exact ih (applyOneEdit lines e)

/-- Claim C9: `apply_text_edits` is total for non-negative positions: the
bounds-checked evaluator, which returns `none` exactly where Python would
raise an `IndexError`, always returns the result of the total function
(out-of-range character offsets are clamped by the slicing model and
lines beyond end-of-file take the padding branch); being a pure function
of its arguments, it performs no I/O. -/
theorem c9_apply_text_edits_total (content : Text) (edits : List Edit) :
    applyTextEditsChecked content edits = some (apply_text_edits content edits) := by
  unfold applyTextEditsChecked apply_text_edits
  rw [foldlM_applyOneEditChecked]
  rfl

theorem keyLe_antisymm {p q : Nat × Nat} (h1 : keyLe p q) (h2 : keyLe q p) : p = q := by
  obtain ⟨a, b⟩ := p
  obtain ⟨c, d⟩ := q
  unfold keyLe at h1 h2
  rw [Prod.mk.injEq]
  constructor <;> omega

theorem sorted_distinct_perm_eq : ∀ {l1 l2 : List Edit}, l1.Perm l2 →
    l1.Sorted editBefore → l2.Sorted editBefore →
    l1.Pairwise (fun a b => editKey a ≠ editKey b) → l1 = l2 := by
  intro l1
  induction l1 with
  | nil =>
    intro l2 hp _ _ _
    exact (hp.symm.eq_nil).symm
  | cons a t ih =>
    intro l2 hp hs1 hs2 hd
    cases l2 with
    | nil =>
      have := hp.eq_nil
      simp at this
    | cons b t2 =>
      by_cases hab : a = b
      · subst hab
        rw [ih hp.cons_inv hs1.of_cons hs2.of_cons hd.of_cons]
      · have hbmem : b ∈ t := by
          have hb : b ∈ a :: t := hp.mem_iff.mpr (List.mem_cons_self b t2)
          rcases List.mem_cons.mp hb with h | h
          · exact absurd h.symm hab
          · exact h
        have hamem : a ∈ t2 := by
          have ha : a ∈ b :: t2 := hp.mem_iff.mp (List.mem_cons_self a t)
          rcases List.mem_cons.mp ha with h | h
          · exact absurd h hab
          · exact h
        have r1 : editBefore a b := (List.sorted_cons.mp hs1).1 b hbmem
        have r2 : editBefore b a := (List.sorted_cons.mp hs2).1 a hamem
        have hkey : editKey a = editKey b := (keyLe_antisymm r1 r2).symm
        exact absurd hkey ((List.pairwise_cons.mp hd).1 b hbmem)

/-- Claim C2, amended: `apply_text_edits` is order-independent for every
set of non-overlapping edits whose `(start.line, start.character)` keys
are pairwise distinct (the counterexample forces this restriction: edits
sharing a start position, such as two inserts at one spot, keep their
input order under the stable sort and are therefore order-dependent by
design, as in the LSP specification). -/
theorem c2_order_independent (content : Text) (l1 l2 : List Edit)
    (hperm : l1.Perm l2)
    (hkeys : l1.Pairwise (fun a b => editKey a ≠ editKey b)) :
    apply_text_edits content l1 = apply_text_edits content l2 := by
  have hs1 : (sortEdits l1).Sorted editBefore := List.sorted_insertionSort editBefore l1
  have hs2 : (sortEdits l2).Sorted editBefore := List.sorted_insertionSort editBefore l2
  have hp : (sortEdits l1).Perm (sortEdits l2) :=
    (List.perm_insertionSort editBefore l1).trans
      (hperm.trans (List.perm_insertionSort editBefore l2).symm)
  have hd : (sortEdits l1).Pairwise (fun a b => editKey a ≠ editKey b) :=
    (List.Perm.pairwise_iff (fun h h2 => h h2.symm)
      (List.perm_insertionSort editBefore l1)).mpr hkeys
  have hsort : sortEdits l1 = sortEdits l2 := sorted_distinct_perm_eq hp hs1 hs2 hd
  unfold apply_text_edits
  rw [hsort]

/-- Witness for the amended claim C2 at the concrete input from the spec:
the two single-line replacements applied in either order agree. -/
theorem c2_order_independent_witness :
    apply_text_edits "line 1\nline 2\nline 3\n".toList
        [Edit.textEdit ⟨⟨0, 5⟩, ⟨0, 6⟩⟩ "one".toList,
         Edit.textEdit ⟨⟨1, 5⟩, ⟨1, 6⟩⟩ "two".toList] =
      apply_text_edits "line 1\nline 2\nline 3\n".toList
        [Edit.textEdit ⟨⟨1, 5⟩, ⟨1, 6⟩⟩ "two".toList,
         Edit.textEdit ⟨⟨0, 5⟩, ⟨0, 6⟩⟩ "one".toList] :=
  c2_order_independent _ _ _
    (List.Perm.swap (Edit.textEdit ⟨⟨1, 5⟩, ⟨1, 6⟩⟩ "two".toList)
      (Edit.textEdit ⟨⟨0, 5⟩, ⟨0, 6⟩⟩ "one".toList) [])
    (by decide)

theorem applyOneEdit_split (L : List Text) (sl sc el ec : Nat) (t : Text) (e : Edit)
    (hr : e.range = ⟨⟨sl, sc⟩, ⟨el, ec⟩⟩) (ht : getEditText e = t)
    (hL : sl < L.length) (hne : sl ≠ el) :
    applyOneEdit L e =
      L.take sl ++
        [(L.getD sl []).take sc ++ t ++
          ((if el < L.length then L.getD el [] else []).drop ec)] ++
        (if el < L.length then L.drop (max (sl + 1) (el + 1)) else L.drop (sl + 1)) := by
  subst ht
  simp only [applyOneEdit, hr, ge_iff_le, if_neg (not_le.mpr hL), if_neg hne, List.length_set]
  by_cases hel : el < L.length
  · simp only [if_pos hel, if_neg (not_le.mpr hel)]
    rw [List.set_eq_take_cons_drop _ hL]
    have hA : (L.take sl).length = sl := by rw [List.length_take]; omega
    rw [List.take_append_eq_append_take, List.drop_append_eq_append_drop, hA]
    have ht1 : (L.take sl).take (sl + 1) = L.take sl :=
      List.take_of_length_le (by rw [hA]; omega)
    have hd1 : (L.take sl).drop (max (sl + 1) (el + 1)) = [] :=
      List.drop_eq_nil_of_le
        (by rw [hA]; exact le_trans (Nat.le_succ sl) (le_max_left _ _))
    have hsub1 : sl + 1 - sl = 1 := by omega
    have hsubM : max (sl + 1) (el + 1) - sl = (max (sl + 1) (el + 1) - sl - 1) + 1 := by
      omega
    rw [ht1, hd1, hsub1, List.take_succ_cons, List.take_zero, hsubM, List.drop_succ_cons,
      List.drop_drop]
    have harith : (sl + 1) + (max (sl + 1) (el + 1) - sl - 1) = max (sl + 1) (el + 1) := by
      omega
    rw [harith]
    simp
  · simp only [if_neg hel, if_pos (not_lt.mp hel)]
    rw [List.set_eq_take_cons_drop _ hL]
    simp

/-- Claim C4, amended: for an edit with `start.line != end.line` and
`start.line` within the current line count, `apply_text_edits` replaces
the start line with `firstLine[:start.char] + new_text + lastLine[end.char:]`
(end-line content taken as empty when `end.line` is at or beyond the last
line), and removes the lines strictly between and including the original
end line only when `end.line` is within the line count; when `end.line`
is at or beyond the end of file, no lines are removed (the counterexample
forces this restriction: the deletion step is guarded by
`end_line < len(lines)`). -/
theorem c4_multiline_edit (content : Text) (e : Edit)
    (h1 : e.range.start.line < (splitlines content).length)
    (h2 : e.range.start.line ≠ e.range.endPos.line) :
    apply_text_edits content [e] =
      ((splitlines content).take e.range.start.line ++
        [((splitlines content).getD e.range.start.line []).take e.range.start.character ++
          getEditText e ++
          ((if e.range.endPos.line < (splitlines content).length then
              (splitlines content).getD e.range.endPos.line []
            else []).drop e.range.endPos.character)] ++
        (if e.range.endPos.line < (splitlines content).length then
          (splitlines content).drop
            (max (e.range.start.line + 1) (e.range.endPos.line + 1))
        else (splitlines content).drop (e.range.start.line + 1))).flatten := by
  have key := applyOneEdit_split (splitlines content) e.range.start.line
    e.range.start.character e.range.endPos.line e.range.endPos.character
    (getEditText e) e rfl rfl h1 h2
  show (applyOneEdit (splitlines content) e).flatten = _
  rw [key]

/-- Witness for the amended claim C4 at the spec's own example: collapsing
lines 0-2 of three lines into `"replaced\n"` yields `"replaced\nline 3\n"`. -/
theorem c4_multiline_edit_witness :
    apply_text_edits "line 1\nline 2\nline 3\n".toList
        [Edit.textEdit ⟨⟨0, 0⟩, ⟨2, 0⟩⟩ "replaced\n".toList] =
      "replaced\nline 3\n".toList :=
  (c4_multiline_edit "line 1\nline 2\nline 3\n".toList
      (Edit.textEdit ⟨⟨0, 0⟩, ⟨2, 0⟩⟩ "replaced\n".toList)
      (by decide) (by decide)).trans (by decide)

end LspClient
